import Mathlib

/-!
Verification model of the "AI Customer Support Chatbot" repository
(conversation_manager.py, entity_extractor.py, faq_handler.py).

Modelling conventions:
* Python `datetime` values are modelled as `Int` (an abstract instant; the
  manager only subtracts and compares them).  `datetime.isoformat()` is
  modelled as an injective textual rendering of that instant.
* Python dicts are modelled as insertion-ordered association lists
  (`List (String × α)`); key assignment replaces in place when the key is
  present and appends otherwise, exactly like a CPython dict.
* `datetime.now()` calls are modelled by an explicit `now : Int` argument,
  and `uuid.uuid4()` by an explicit fresh-id argument.
* A message's `timestamp` field is dynamically typed in Python (it holds a
  `datetime` until `export_conversation` overwrites it with a `str`), so it
  is modelled by the sum type `TimeVal`.  Calling `.isoformat()` on a value
  that is already a string raises `AttributeError`; that failure is
  modelled by `Option`/`Except` results.
-/

namespace Chatbot

/-- Dynamic type of a stored message timestamp: a `datetime` instant, or the
ISO string that `export_conversation` writes over it. -/
inductive TimeVal where
  | dt (t : Int)
  | iso (s : String)
deriving DecidableEq, Repr

/-- Modelled `datetime.isoformat()` on a genuine datetime: an injective
textual rendering of the instant. -/
def isoformat (t : Int) : String := toString t

/-- `.isoformat()` on a dynamically typed timestamp value: succeeds on a
`datetime`, raises `AttributeError` (modelled as `none`) on a string. -/
def isoformatV : TimeVal → Option String
  | .dt t => some (isoformat t)
  | .iso _ => none

/-- Subtraction of two dynamically typed timestamps
(`(end_time - start_time).total_seconds()`): defined on two datetimes,
raises `TypeError` (modelled as `Except.error`) otherwise. -/
def tvSub : TimeVal → TimeVal → Except Unit Int
  | .dt a, .dt b => .ok (a - b)
  | _, _ => .error ()

/-- Python `str.lower()`: lower-case each character (as Lean's
`String.toLower` does, but defined by structural recursion over the
character list so that it evaluates inside the kernel). -/
def pyLower (s : String) : String := String.mk (s.data.map Char.toLower)

/-- Python `str.strip()`: drop leading and trailing whitespace. -/
def pyStrip (s : String) : String :=
  String.mk
    (((s.data.dropWhile Char.isWhitespace).reverse.dropWhile
      Char.isWhitespace).reverse)

/-- Dict lookup (`d.get(k)` / `d[k]` guarded by a membership test). -/
def dictGet {κ α : Type} [DecidableEq κ] (l : List (κ × α)) (k : κ) :
    Option α :=
  (l.find? (fun p => p.1 = k)).map Prod.snd

/-- Dict key membership (`k in d`). -/
def dictHas {κ α : Type} [DecidableEq κ] (l : List (κ × α)) (k : κ) : Bool :=
  l.any (fun p => p.1 = k)

/-- Dict assignment `d[k] = v`: replaces in place when the key is present,
appends otherwise (CPython dicts preserve insertion order). -/
def dictSet {κ α : Type} [DecidableEq κ] (l : List (κ × α)) (k : κ) (v : α) :
    List (κ × α) :=
  if dictHas l k then l.map (fun p => if p.1 = k then (k, v) else p)
  else l ++ [(k, v)]

/-- Dict merge `d.update(u)`: assigns every pair of `u` in order. -/
def dictUpdate {κ α : Type} [DecidableEq κ] (l u : List (κ × α)) :
    List (κ × α) :=
  u.foldl (fun acc p => dictSet acc p.1 p.2) l

/-- Dict key deletion `del d[k]`. -/
def dictDel {κ α : Type} [DecidableEq κ] (l : List (κ × α)) (k : κ) :
    List (κ × α) :=
  l.filter (fun p => p.1 ≠ k)

/-- A stored chat message (`add_message`'s dict).  `metadata` values are
`Option String` because Python stores `None` under the `"reason"` key when
an escalation has no reason. -/
structure Msg where
  id : String
  role : String
  content : String
  timestamp : TimeVal
  metadata : List (String × Option String)
deriving DecidableEq, Repr

/-- `metadata.get(k)` flattened: a missing key and a stored `None` both read
back as `none` (exactly how the summary code consumes it). -/
def mget (l : List (String × Option String)) (k : String) : Option String :=
  (dictGet l k).bind id

/-- A conversation record (`create_conversation`'s dict).  `created_at` and
`last_activity` stay genuine datetimes in the store (export rebinds them only
on its shallow copy), so they are plain `Int`s; `escalation_reason` is
`Option (Option String)` (key absent / key present holding a possibly-`None`
reason). -/
structure Conv where
  id : String
  created_at : Int
  last_activity : Int
  messages : List Msg
  context : List (String × String)
  user_info : List (String × String)
  satisfaction_score : Option Int
  escalated : Bool
  resolved : Bool
  escalation_reason : Option (Option String) := none
  escalation_time : Option Int := none
  resolved_at : Option Int := none
deriving DecidableEq, Repr

/-- The `ConversationManager` object: its dict of conversations and the
`max_conversation_age` threshold (`timedelta(hours=24)`, modelled in
seconds). -/
structure ConversationManager where
  conversations : List (String × Conv)
  max_conversation_age : Int := 86400
deriving DecidableEq, Repr

namespace ConversationManager

/-- In-place mutation of one stored conversation
(`self.conversations[cid]["field"] = ...`). -/
def modifyConv (st : ConversationManager) (cid : String) (f : Conv → Conv) :
    ConversationManager :=
  { st with
    conversations :=
      st.conversations.map (fun p => if p.1 = cid then (p.1, f p.2) else p) }

/-- `create_conversation`: fresh id and `now` are explicit arguments for the
`uuid.uuid4()` and `datetime.now()` calls. -/
def create_conversation (st : ConversationManager) (cid : String)
    (now : Int) : String × ConversationManager :=
  (cid,
   { st with
     conversations :=
       dictSet st.conversations cid
         { id := cid
           created_at := now
           last_activity := now
           messages := []
           context := []
           user_info := []
           satisfaction_score := none
           escalated := false
           resolved := false } })

/-- `add_message`: appends the message and touches `last_activity`; returns
`false` and leaves the store unchanged on an unknown id. -/
def add_message (st : ConversationManager) (cid role content : String)
    (metadata : Option (List (String × Option String)))
    (mid : String) (now : Int) : Bool × ConversationManager :=
  if dictHas st.conversations cid then
    (true,
     modifyConv st cid (fun c =>
       { c with
         messages := c.messages ++
           [{ id := mid, role := role, content := content,
              timestamp := .dt now, metadata := metadata.getD [] }]
         last_activity := now }))
  else (false, st)

/-- `get_conversation`. -/
def get_conversation (st : ConversationManager) (cid : String) :
    Option Conv :=
  dictGet st.conversations cid

/-- Python slice `l[s:]` for an arbitrary integer start. -/
def pySliceFrom {α : Type} (l : List α) (s : Int) : List α :=
  let n : Int := l.length
  let start : Int := if s < 0 then max (n + s) 0 else min s n
  l.drop start.toNat

/-- `get_messages`: `if limit:` is Python truthiness, so `None` and `0` both
fall through to returning every message; otherwise `messages[-limit:]`. -/
def get_messages (st : ConversationManager) (cid : String)
    (limit : Option Int) : List Msg :=
  match dictGet st.conversations cid with
  | none => []
  | some c =>
    match limit with
    | none => c.messages
    | some k => if k ≠ 0 then pySliceFrom c.messages (-k) else c.messages

/-- `update_context`: merges the updates and touches `last_activity`. -/
def update_context (st : ConversationManager) (cid : String)
    (updates : List (String × String)) (now : Int) :
    Bool × ConversationManager :=
  if dictHas st.conversations cid then
    (true,
     modifyConv st cid (fun c =>
       { c with context := dictUpdate c.context updates,
                last_activity := now }))
  else (false, st)

/-- `set_user_info`: merges the info; the source does **not** touch
`last_activity` here (it never calls `datetime.now()`). -/
def set_user_info (st : ConversationManager) (cid : String)
    (info : List (String × String)) : Bool × ConversationManager :=
  if dictHas st.conversations cid then
    (true,
     modifyConv st cid (fun c =>
       { c with user_info := dictUpdate c.user_info info }))
  else (false, st)

/-- `escalate_conversation`: sets the flag, reason and time, then appends the
system message through `add_message` (which is what touches
`last_activity`). -/
def escalate_conversation (st : ConversationManager) (cid : String)
    (reason : Option String) (mid : String) (now : Int) :
    Bool × ConversationManager :=
  if dictHas st.conversations cid then
    let st1 := modifyConv st cid (fun c =>
      { c with escalated := true
               escalation_reason := some reason
               escalation_time := some now })
    let st2 := (add_message st1 cid "system"
      ("Conversation escalated to human agent. Reason: " ++
        reason.getD "User request")
      (some [("type", some "escalation"), ("reason", reason)]) mid now).2
    (true, st2)
  else (false, st)

/-- `resolve_conversation`: sets the flag, `resolved_at`, and the optional
score; the source does **not** touch `last_activity` here. -/
def resolve_conversation (st : ConversationManager) (cid : String)
    (score : Option Int) (now : Int) : Bool × ConversationManager :=
  if dictHas st.conversations cid then
    (true,
     modifyConv st cid (fun c =>
       { c with resolved := true
                resolved_at := some now
                satisfaction_score :=
                  match score with
                  | some s => some s
                  | none => c.satisfaction_score }))
  else (false, st)

/-- The record returned by `get_conversation_summary`. -/
structure Summary where
  conversation_id : String
  created_at : Int
  last_activity : Int
  duration_seconds : Option Int
  message_count : Nat
  message_counts : List (String × Nat)
  intents_discussed : List String
  escalated : Bool
  resolved : Bool
  satisfaction_score : Option Int
  user_info : List (String × String)
deriving DecidableEq, Repr

/-- Per-role message counts (`message_counts[role] = get(role, 0) + 1`). -/
def roleCounts (msgs : List Msg) : List (String × Nat) :=
  msgs.foldl
    (fun acc m => dictSet acc m.role ((dictGet acc m.role).getD 0 + 1)) []

/-- First-seen distinct intents on assistant messages
(`if intent and intent not in intents`). -/
def intentsOf (msgs : List Msg) : List String :=
  msgs.foldl
    (fun acc m =>
      if m.role = "assistant" then
        match mget m.metadata "intent" with
        | some i => if i ≠ "" ∧ i ∉ acc then acc ++ [i] else acc
        | none => acc
      else acc) []

/-- `get_conversation_summary`: `Except.error` models the `TypeError` raised
by `(end_time - start_time).total_seconds()` when the stored timestamps have
been overwritten with strings; the inner `Option` is Python's
`None`-for-unknown-id. -/
def get_conversation_summary (st : ConversationManager) (cid : String) :
    Except Unit (Option Summary) :=
  match dictGet st.conversations cid with
  | none => .ok none
  | some c =>
    let durE : Except Unit (Option Int) :=
      match c.messages with
      | [] => .ok none
      | m0 :: rest =>
        match tvSub ((m0 :: rest).getLast (by simp)).timestamp
            m0.timestamp with
        | .ok d => .ok (some d)
        | .error e => .error e
    match durE with
    | .error e => .error e
    | .ok dur =>
      .ok (some
        { conversation_id := cid
          created_at := c.created_at
          last_activity := c.last_activity
          duration_seconds := dur
          message_count := c.messages.length
          message_counts := roleCounts c.messages
          intents_discussed := intentsOf c.messages
          escalated := c.escalated
          resolved := c.resolved
          satisfaction_score := c.satisfaction_score
          user_info := c.user_info })

/-- `cleanup_old_conversations`: collects every id whose
`now - last_activity > max_conversation_age`, deletes them, and returns how
many were deleted. -/
def cleanup_old_conversations (st : ConversationManager) (now : Int) :
    Nat × ConversationManager :=
  let to_remove :=
    (st.conversations.filter
      (fun p => now - p.2.last_activity > st.max_conversation_age)).map
      Prod.fst
  let convs := to_remove.foldl (fun cs cid => dictDel cs cid)
    st.conversations
  (to_remove.length, { st with conversations := convs })

/-- The serializable record returned by `export_conversation`: the shallow
copy of the conversation dict with its top-level timestamps rebound to ISO
strings. -/
structure ExportRec where
  id : String
  created_at : String
  last_activity : String
  messages : List Msg
  context : List (String × String)
  user_info : List (String × String)
  satisfaction_score : Option Int
  escalated : Bool
  resolved : Bool
  escalation_reason : Option (Option String)
  escalation_time : Option String
  resolved_at : Option String
deriving DecidableEq, Repr

/-- The in-place loop `for message in conversation["messages"]:
message["timestamp"] = message["timestamp"].isoformat()`.  Returns the list
as it stands when the loop finishes or raises, plus a success flag: on the
first timestamp that is already a string the loop raises `AttributeError`,
leaving that message and its successors untouched. -/
def isoMsgs : List Msg → List Msg × Bool
  | [] => ([], true)
  | m :: rest =>
    match isoformatV m.timestamp with
    | none => (m :: rest, false)
    | some s =>
      let (tl, ok) := isoMsgs rest
      ({ m with timestamp := .iso s } :: tl, ok)

/-- `export_conversation`: works on a **shallow** copy of the conversation
dict, so rebinding the top-level timestamps leaves the store alone, but the
message list is shared and its timestamps are overwritten in place in the
store.  Returns `.ok none` when the id is unknown, `.error ()` when a
message timestamp is already a string and `.isoformat()` raises
`AttributeError`, and otherwise `.ok (some record)`, each paired with the
store as the call leaves it. -/
def export_conversation (st : ConversationManager) (cid : String) :
    Except Unit (Option ExportRec) × ConversationManager :=
  match dictGet st.conversations cid with
  | none => (.ok none, st)
  | some c =>
    let (msgs, ok) := isoMsgs c.messages
    let st1 := modifyConv st cid (fun c0 => { c0 with messages := msgs })
    if ok then
      (.ok (some
        { id := c.id
          created_at := isoformat c.created_at
          last_activity := isoformat c.last_activity
          messages := msgs
          context := c.context
          user_info := c.user_info
          satisfaction_score := c.satisfaction_score
          escalated := c.escalated
          resolved := c.resolved
          escalation_reason := c.escalation_reason
          escalation_time := c.escalation_time.map isoformat
          resolved_at := c.resolved_at.map isoformat }), st1)
    else (.error (), st1)

end ConversationManager

/-!
## EntityExtractor (entity_extractor.py)

The six regexes in `EntityExtractor.patterns` are transcribed into a small
regex AST and run with a backtracking matcher reproducing Python `re`
semantics for these constructs: ordered alternation, greedy `?`, greedy
class repetition (`+`, `*`, `{m}`, `{m,}`, `{m,n}`), one capturing group,
and `\b` word boundaries.  `re.IGNORECASE` is applied by closing every
character test under `Char.toLower`/`Char.toUpper`; `\d`, `\s` and `\w` are
modelled by their ASCII meanings (`Char.isDigit`, `Char.isWhitespace`,
alphanumeric-or-underscore).
-/

/-- Regex AST.  Repetition is only over a character class, which is all the
source patterns use. -/
inductive RE where
  | eps
  | cls (p : Char → Bool)
  | seq (r1 r2 : RE)
  | alt (r1 r2 : RE)
  | opt (r : RE)
  | rep (p : Char → Bool) (lo : Nat) (hi : Option Nat)
  | grp (r : RE)
  | wb

/-- ASCII model of `\w` (word character, for `\b`). -/
def isWordChar (c : Char) : Bool := c.isAlphanum || c == '_'

/-- Length of the run of characters satisfying `p` starting at index `i`,
capped at `cap`. -/
def runLen (a : List Char) (p : Char → Bool) : Nat → Nat → Nat
  | _, 0 => 0
  | i, cap + 1 =>
    if i < a.length ∧ p (a.getD i ' ') then runLen a p (i + 1) cap + 1
    else 0

/-- Backtracking matcher: all candidate (end position, group-1 span) pairs
of a match of the regex starting at index `i`, in Python's backtracking
preference order (first element = the match Python commits to).  Greedy
repetition lists longer consumptions first; alternation is tried
left-to-right. -/
def mmatch (a : List Char) : RE → Nat → Option (Nat × Nat) →
    List (Nat × Option (Nat × Nat))
  | .eps, i, g => [(i, g)]
  | .cls p, i, g =>
    if i < a.length ∧ p (a.getD i ' ') then [(i + 1, g)] else []
  | .seq r1 r2, i, g =>
    (mmatch a r1 i g).flatMap (fun x => mmatch a r2 x.1 x.2)
  | .alt r1 r2, i, g => mmatch a r1 i g ++ mmatch a r2 i g
  | .opt r, i, g => mmatch a r i g ++ [(i, g)]
  | .rep p lo hi, i, g =>
    let cap := match hi with | some h => h | none => a.length - i
    let run := runLen a p i cap
    if run < lo then []
    else (List.range (run - lo + 1)).map (fun t => (i + run - t, g))
  | .grp r, i, g =>
    (mmatch a r i g).map (fun x => (x.1, some (i, x.1)))
  | .wb, i, g =>
    let prevW := decide (0 < i) && isWordChar (a.getD (i - 1) ' ')
    let curW := decide (i < a.length) && isWordChar (a.getD i ' ')
    if prevW ≠ curW then [(i, g)] else []

/-- The match Python's engine commits to at start position `i`, if any. -/
def reMatch (a : List Char) (r : RE) (i : Nat) :
    Option (Nat × Option (Nat × Nat)) :=
  (mmatch a r i none).head?

/-- `re.finditer` scan: try each start position left to right; after a
match, resume at its end (or one further for an empty match).  `fuel`
bounds the scan; `a.length + 1 - pos` always suffices since every step
advances `pos`. -/
def finditerAux (a : List Char) (r : RE) : Nat → Nat →
    List (Nat × Nat × Option (Nat × Nat))
  | _, 0 => []
  | pos, fuel + 1 =>
    if pos > a.length then []
    else
      match reMatch a r pos with
      | some (e, g) => (pos, e, g) :: finditerAux a r (max (pos + 1) e) fuel
      | none => finditerAux a r (pos + 1) fuel

/-- All non-overlapping matches of `r` in `a`, as
(start, end, group-1 span) triples. -/
def finditer (a : List Char) (r : RE) :
    List (Nat × Nat × Option (Nat × Nat)) :=
  finditerAux a r 0 (a.length + 1)

/-- Close a character test under case variants (`re.IGNORECASE`). -/
def ci (p : Char → Bool) : Char → Bool :=
  fun c => p c || p c.toLower || p c.toUpper

/-- A single literal character, case-insensitively. -/
def chr (c : Char) : RE := .cls (ci (fun x => x == c))

/-- A literal string, case-insensitively. -/
def litRE (s : String) : RE :=
  s.data.foldr (fun c r => .seq (chr c) r) .eps

/-- `[-.\s]`. -/
def dashDotSpace (c : Char) : Bool :=
  c == '-' || c == '.' || c.isWhitespace

/-- `[/\-]` (spelled with an escaped dash; the source writes the dash
last). -/
def slashDash (c : Char) : Bool := c == '/' || c == '-'

/-- `\b(?:order|order\s*#|order\s*number)[:\s]*([A-Z0-9]{6,})\b`. -/
def orderNumberRE : RE :=
  .seq .wb (.seq
    (.alt (litRE "order")
      (.alt
        (.seq (litRE "order")
          (.seq (.rep Char.isWhitespace 0 none) (litRE "#")))
        (.seq (litRE "order")
          (.seq (.rep Char.isWhitespace 0 none) (litRE "number")))))
    (.seq (.rep (fun c => c == ':' || c.isWhitespace) 0 none)
      (.seq (.grp (.rep (ci (fun c => c.isUpper || c.isDigit)) 6 none))
        .wb)))

/-- `\b[A-Za-z0-9._%+-]+@[A-Za-z0-9.-]+\.[A-Z|a-z]{2,}\b`. -/
def emailRE : RE :=
  .seq .wb (.seq
    (.rep (fun c => c.isAlphanum || c == '.' || c == '_' || c == '%' ||
      c == '+' || c == '-') 1 none)
    (.seq (chr '@')
      (.seq (.rep (fun c => c.isAlphanum || c == '.' || c == '-') 1 none)
        (.seq (chr '.')
          (.seq (.rep (ci (fun c => c.isUpper || c.isLower || c == '|'))
            2 none) .wb)))))

/-- `\b(?:\+?1[-.\s]?)?\(?[0-9]{3}\)?[-.\s]?[0-9]{3}[-.\s]?[0-9]{4}\b`. -/
def phoneRE : RE :=
  .seq .wb (.seq
    (.opt (.seq (.opt (chr '+'))
      (.seq (chr '1') (.opt (.cls dashDotSpace)))))
    (.seq (.opt (chr '('))
      (.seq (.rep Char.isDigit 3 (some 3))
        (.seq (.opt (chr ')'))
          (.seq (.opt (.cls dashDotSpace))
            (.seq (.rep Char.isDigit 3 (some 3))
              (.seq (.opt (.cls dashDotSpace))
                (.seq (.rep Char.isDigit 4 (some 4)) .wb))))))))

/-- `\b(?:product|item|sku)[:\s]*([A-Z0-9]{3,})\b`. -/
def productIdRE : RE :=
  .seq .wb (.seq
    (.alt (litRE "product") (.alt (litRE "item") (litRE "sku")))
    (.seq (.rep (fun c => c == ':' || c.isWhitespace) 0 none)
      (.seq (.grp (.rep (ci (fun c => c.isUpper || c.isDigit)) 3 none))
        .wb)))

/-- `\$?\d+(?:\.\d{2})?`. -/
def amountRE : RE :=
  .seq (.opt (chr '$'))
    (.seq (.rep Char.isDigit 1 none)
      (.opt (.seq (chr '.') (.rep Char.isDigit 2 (some 2)))))

/-- `\b(?:today|tomorrow|yesterday|\d{1,2}[/\-]\d{1,2}[/\-]\d{2,4})\b`
(dashes escaped here; the source writes them unescaped, last in the
class). -/
def dateRE : RE :=
  .seq .wb (.seq
    (.alt (litRE "today") (.alt (litRE "tomorrow")
      (.alt (litRE "yesterday")
        (.seq (.rep Char.isDigit 1 (some 2))
          (.seq (.cls slashDash)
            (.seq (.rep Char.isDigit 1 (some 2))
              (.seq (.cls slashDash)
                (.rep Char.isDigit 2 (some 4)))))))))
    .wb)

namespace EntityExtractor

/-- `self.patterns`, in dict insertion order. -/
def patterns : List (String × RE) :=
  [("order_number", orderNumberRE), ("email", emailRE),
   ("phone", phoneRE), ("product_id", productIdRE),
   ("amount", amountRE), ("date", dateRE)]

/-- An extracted entity.  Offsets are present only on pattern-derived
entities; the Python dict key `"end"` is named `endPos` because `end` is a
Lean keyword; confidence is exact (`ℚ`). -/
structure Entity where
  type : String
  value : String
  start : Option Nat := none
  endPos : Option Nat := none
  confidence : ℚ
  source : String
deriving DecidableEq, Repr

/-- The substring `text[s:e]` of a character list. -/
def sub (a : List Char) (s e : Nat) : String :=
  String.mk ((a.drop s).take (e - s))

/-- `_extract_with_regex`: every pattern's non-overlapping matches, group 1
for the two prefix patterns (the only ones with a group), full match
otherwise, value stripped, confidence 0.9. -/
def _extract_with_regex (text : String) : List Entity :=
  let a := text.data
  patterns.flatMap (fun pr =>
    (finditer a pr.2).map (fun m =>
      let value :=
        if pr.1 = "order_number" ∨ pr.1 = "product_id" then
          match m.2.2 with
          | some g => sub a g.1 g.2
          | none => sub a m.1 m.2.1
        else sub a m.1 m.2.1
      { type := pr.1, value := pyStrip value, start := some m.1,
        endPos := some m.2.1, confidence := 9/10, source := "regex" }))

/-- One step of `_deduplicate_entities`' loop: assign
`unique_entities[key] = entity` when the key is new or the new confidence is
strictly higher. -/
def dedupStep (acc : List (String × Entity)) (e : Entity) :
    List (String × Entity) :=
  let key := e.type ++ "_" ++ pyLower e.value
  match dictGet acc key with
  | none => dictSet acc key e
  | some old =>
    if e.confidence > old.confidence then dictSet acc key e else acc

/-- `_deduplicate_entities`: fold the loop over the entities and return the
dict's values in insertion order. -/
def _deduplicate_entities (es : List Entity) : List Entity :=
  (es.foldl dedupStep []).map Prod.snd

/-- `extract_entities`: regex entities, then the external-model stage inside
`try/except` — its outcome (`.ok` entities or a raised `.error`) is an
explicit argument since it is an external network call — then
deduplication.  A raised error is swallowed and contributes nothing. -/
def extract_entities (text : String)
    (aiResult : Except String (List Entity)) : List Entity :=
  let entities := _extract_with_regex text
  let entities :=
    match aiResult with
    | .ok ai => entities ++ ai
    | .error _ => entities
  _deduplicate_entities entities

end EntityExtractor

/-!
## difflib.SequenceMatcher (standard library dependency of faq_handler.py)

`FAQHandler.get_faq_response` scores `SequenceMatcher(None, a, b).ratio()`.
The port below follows CPython's difflib: `__chain_b` builds the index of
`b` (with the autojunk rule discarding characters occupying more than 1% of
a `b` of length ≥ 200), `find_longest_match` runs the longest-matching-block
dynamic program with lowest-start tie-breaking and then widens the block
over equal characters (with `isjunk = None` the junk set is empty, so the
two junk-widening loops of the source can never fire and are omitted), and
`ratio` is `2*M/T` for `M` the total size of all matching blocks and `T`
the combined length — `1` when both strings are empty. -/
namespace SequenceMatcher

/-- `__chain_b`: positions of each character of `b`, in order, minus the
"popular" characters when autojunk applies. -/
def chainB (b : List Char) : List (Char × List Nat) :=
  let b2j := b.enum.foldl
    (fun acc p => dictSet acc p.2 ((dictGet acc p.2).getD [] ++ [p.1])) []
  let n := b.length
  if 200 ≤ n then
    let ntest := n / 200 + 1
    b2j.filter (fun p => ¬ p.2.length > ntest)
  else b2j

/-- Inner loop of `find_longest_match` for one `i`: walk the (ascending)
positions of `a[i]` in `b`, skipping those before `blo` and stopping at
`bhi`, extending runs via the previous row `j2len` and tracking the best
block so far.  Returns the new row and the best block. -/
def flmRow (blo bhi i : Nat) (j2len : List (Nat × Nat)) :
    List Nat → List (Nat × Nat) → Nat × Nat × Nat →
    List (Nat × Nat) × (Nat × Nat × Nat)
  | [], newj2len, best => (newj2len, best)
  | j :: js, newj2len, best =>
    if j < blo then flmRow blo bhi i j2len js newj2len best
    else if bhi ≤ j then (newj2len, best)
    else
      let k := (if j = 0 then 0 else (dictGet j2len (j - 1)).getD 0) + 1
      let newj2len := dictSet newj2len j k
      let best :=
        if k > best.2.2 then (i + 1 - k, j + 1 - k, k) else best
      flmRow blo bhi i j2len js newj2len best

/-- The backward widening loop of `find_longest_match` (over ordinary
characters; the junk set is empty here). -/
def extBack (a b : List Char) (alo blo : Nat)
    (besti bestj bestsize : Nat) : Nat × Nat × Nat :=
  if alo < besti ∧ blo < bestj ∧
      a.getD (besti - 1) ' ' = b.getD (bestj - 1) ' ' then
    extBack a b alo blo (besti - 1) (bestj - 1) (bestsize + 1)
  else (besti, bestj, bestsize)
termination_by besti
decreasing_by omega

/-- The forward widening loop of `find_longest_match`. -/
def extFwd (a b : List Char) (ahi bhi besti bestj : Nat)
    (bestsize : Nat) : Nat :=
  if besti + bestsize < ahi ∧ bestj + bestsize < bhi ∧
      a.getD (besti + bestsize) ' ' = b.getD (bestj + bestsize) ' ' then
    extFwd a b ahi bhi besti bestj (bestsize + 1)
  else bestsize
termination_by ahi - (besti + bestsize)
decreasing_by omega

/-- `find_longest_match` on `a[alo:ahi]` / `b[blo:bhi]`. -/
def find_longest_match (a b : List Char) (b2j : List (Char × List Nat))
    (alo ahi blo bhi : Nat) : Nat × Nat × Nat :=
  let st := (List.range' alo (ahi - alo)).foldl
    (fun (st : List (Nat × Nat) × (Nat × Nat × Nat)) i =>
      flmRow blo bhi i st.1 ((dictGet b2j (a.getD i ' ')).getD []) [] st.2)
    ([], (alo, blo, 0))
  let (besti, bestj, bestsize) := st.2
  let (besti, bestj, bestsize) := extBack a b alo blo besti bestj bestsize
  let bestsize := extFwd a b ahi bhi besti bestj bestsize
  (besti, bestj, bestsize)

/-- Total size of all matching blocks (`get_matching_blocks` recursion on
both sides of the longest match; the order blocks are collected in does not
matter for the sum).  `fuel` bounds the recursion depth; every level with a
nonzero block strictly shrinks the combined interval size, so
`a.length + b.length + 1` always suffices. -/
def matchSizeAux (a b : List Char) (b2j : List (Char × List Nat)) :
    Nat → Nat → Nat → Nat → Nat → Nat
  | 0, _, _, _, _ => 0
  | fuel + 1, alo, ahi, blo, bhi =>
    let r := find_longest_match a b b2j alo ahi blo bhi
    if r.2.2 = 0 then 0
    else r.2.2 + matchSizeAux a b b2j fuel alo r.1 blo r.2.1 +
      matchSizeAux a b b2j fuel (r.1 + r.2.2) ahi (r.2.1 + r.2.2) bhi

/-- `M`: total number of matched characters between `a` and `b`. -/
def matchSize (a b : List Char) : Nat :=
  matchSizeAux a b (chainB b) (a.length + b.length + 1)
    0 a.length 0 b.length

/-- `ratio()`: `2*M/T`, and `1.0` when both strings are empty
(`_calculate_ratio`). -/
def ratio (a b : List Char) : ℚ :=
  let m := matchSize a b
  let t := a.length + b.length
  if t ≠ 0 then (2 * m : ℚ) / t else 1

end SequenceMatcher

/-!
## FAQHandler (faq_handler.py)
-/
namespace FAQHandler

/-- One FAQ catalog entry. -/
structure FAQData where
  questions : List String
  answer : String
  category : String
deriving DecidableEq, Repr

/-- `self.similarity_threshold`, set to `0.6` in `__init__`. -/
def similarity_threshold : ℚ := 6/10

/-- Python `str.split()` with no separator: split on whitespace runs,
discarding empty tokens (structural recursion over the characters, with an
accumulator for the word being read). -/
def wordsAux : List Char → List Char → List String
  | [], acc => if acc = [] then [] else [String.mk acc.reverse]
  | c :: cs, acc =>
    if c.isWhitespace then
      if acc = [] then wordsAux cs []
      else String.mk acc.reverse :: wordsAux cs []
    else wordsAux cs (c :: acc)

def pySplit (s : String) : List String := wordsAux s.data []

/-- The stop-word set of `_calculate_keyword_score`. -/
def stop_words : List String :=
  ["the", "a", "an", "and", "or", "but", "in", "on", "at", "to", "for",
   "of", "with", "by", "is", "are", "was", "were", "be", "been", "have",
   "has", "had", "do", "does", "did", "will", "would", "could", "should",
   "may", "might", "can", "i", "you", "he", "she", "it", "we", "they",
   "my", "your", "his", "her", "its", "our", "their"]

/-- `_calculate_keyword_score`: word sets of both strings minus stop words;
`|intersection| / |faq_words|`, `0` when the FAQ question has no keywords
left.  Lists stand for Python sets, so both are deduplicated before
counting. -/
def _calculate_keyword_score (user_message faq_question : String) : ℚ :=
  let user_words := (pySplit user_message).dedup
  let faq_words := (pySplit faq_question).dedup
  let user_words := user_words.filter (fun w => w ∉ stop_words)
  let faq_words := faq_words.filter (fun w => w ∉ stop_words)
  if faq_words = [] then 0
  else ((user_words.filter (fun w => w ∈ faq_words)).length : ℚ) /
    (faq_words.length : ℚ)

/-- The combined score of one paraphrase question against the (already
lowercased) user message:
`similarity * 0.7 + keyword_score * 0.3`. -/
def combined_score (user_message_lower question : String) : ℚ :=
  let similarity :=
    SequenceMatcher.ratio user_message_lower.data (pyLower question).data
  let keyword_score :=
    _calculate_keyword_score user_message_lower (pyLower question)
  similarity * (7/10) + keyword_score * (3/10)

/-- `get_faq_response`: fold over every entry and every paraphrase,
keeping `(best_score, best_match)` and updating when the combined score is
strictly better and at least the threshold; returns the best entry's answer
when a match was kept. -/
def get_faq_response (faqs : List (String × FAQData))
    (user_message : String) : Option String :=
  let user_message_lower := pyLower user_message
  let st := faqs.foldl
    (fun st pr =>
      pr.2.questions.foldl
        (fun (st : ℚ × Option FAQData) question =>
          let c := combined_score user_message_lower question
          if c > st.1 ∧ c ≥ similarity_threshold then (c, some pr.2)
          else st)
        st)
    ((0 : ℚ), (none : Option FAQData))
  match st.2 with
  | some fd => some fd.answer
  | none => none

/-- Specification-side scored list: the combined score of every
entry/paraphrase pair, in iteration order, paired with its entry. -/
def faq_scored (faqs : List (String × FAQData)) (user_message : String) :
    List (ℚ × FAQData) :=
  faqs.flatMap (fun pr =>
    pr.2.questions.map
      (fun q => (combined_score (pyLower user_message) q, pr.2)))

/-- Specification-side selection helper: the element carrying the single
highest score, the earliest in iteration order among ties. -/
def bestOf {α : Type} : List (ℚ × α) → Option (ℚ × α)
  | [] => none
  | p :: ps =>
    match bestOf ps with
    | none => some p
    | some q => if q.1 > p.1 then some q else some p

/-- Specification-side matcher, written from the spec's words: track the
single highest combined score across all entries/paraphrases (first
reaching it wins) and return that entry's answer when the score is at least
the threshold, otherwise no match. -/
def spec_faq_response (faqs : List (String × FAQData))
    (user_message : String) : Option String :=
  match bestOf (faq_scored faqs user_message) with
  | none => none
  | some p =>
    if p.1 ≥ similarity_threshold then some p.2.answer else none

end FAQHandler

/-!
## Shared lemmas
-/

theorem dictHas_eq_false_of_none {κ α : Type} [DecidableEq κ]
    {l : List (κ × α)} {k : κ} (h : dictGet l k = none) :
    dictHas l k = false := by
  induction l with
  | nil => rfl
  | cons p t ih =>
    by_cases hk : p.1 = k
    · simp [dictGet, List.find?, hk] at h
    · simp [dictGet, List.find?, hk] at h ⊢
      simp [dictHas, hk] at ih ⊢
      exact ih (by simpa [dictGet] using h)

namespace ConversationManager

theorem dictGet_modifyConv (st : ConversationManager) (cid : String)
    (f : Conv → Conv) :
    dictGet (st.modifyConv cid f).conversations cid =
      (dictGet st.conversations cid).map f := by
  show dictGet (st.conversations.map _) cid = _
  induction st.conversations with
  | nil => rfl
  | cons p t ih =>
    by_cases hk : p.1 = cid
    · simp [dictGet, List.find?, hk]
    · simpa [dictGet, List.find?, hk] using ih

theorem dictHas_modifyConv (st : ConversationManager) (cid k : String)
    (f : Conv → Conv) :
    dictHas (st.modifyConv cid f).conversations k =
      dictHas st.conversations k := by
  show dictHas (st.conversations.map _) k = _
  induction st.conversations with
  | nil => rfl
  | cons p t ih =>
    simp only [dictHas, List.map_cons, List.any_cons, List.any_map] at ih ⊢
    by_cases hk : p.1 = cid
    · simp [hk, ih]
    · simp [hk, ih]

end ConversationManager

theorem dictGet_eq_none_of_has_false {κ α : Type} [DecidableEq κ]
    {l : List (κ × α)} {k : κ} (h : dictHas l k = false) :
    dictGet l k = none := by
  induction l with
  | nil => rfl
  | cons p t ih =>
    simp only [dictHas, List.any_cons, Bool.or_eq_false_iff] at h
    have hk : ¬ p.1 = k := by simpa using h.1
    simp only [dictGet]
    rw [List.find?_cons_of_neg _ (by simpa using hk)]
    exact ih (by simpa [dictHas] using h.2)

theorem dictHas_of_dictGet_some {κ α : Type} [DecidableEq κ]
    {l : List (κ × α)} {k : κ} {c : α} (h : dictGet l k = some c) :
    dictHas l k = true := by
  cases hq : dictHas l k with
  | true => rfl
  | false => rw [dictGet_eq_none_of_has_false hq] at h; cases h

/-!
## Claim C1 — export mutates the store (shallow-copy bug)
-/

/-- A stored conversation with one message, appended at instant 5. -/
def msgC1 : Msg :=
  { id := "m1", role := "user", content := "hello",
    timestamp := .dt 5, metadata := [] }

def convC1 : Conv :=
  { id := "c", created_at := 0, last_activity := 5,
    messages := [msgC1], context := [], user_info := [],
    satisfaction_score := none, escalated := false, resolved := false }

def stC1 : ConversationManager := { conversations := [("c", convC1)] }

/-- The record the first export returns. -/
def recC1 : ConversationManager.ExportRec :=
  { id := "c", created_at := "0", last_activity := "5",
    messages := [{ msgC1 with timestamp := .iso "5" }],
    context := [], user_info := [], satisfaction_score := none,
    escalated := false, resolved := false, escalation_reason := none,
    escalation_time := none, resolved_at := none }

/-- C1: the claim says `export` is read-only — after it returns, every
stored message timestamp is unchanged and a second `export` behaves as the
first.  The code violates this: `export_conversation` shallow-copies the
conversation dict, so the loop that renders message timestamps as ISO
strings overwrites them **in the store**; on the conversation above the
stored timestamp changes from the datetime `5` to the string `"5"` and a
second export raises `AttributeError` (a `str` has no `isoformat`).  The
spec's §3 ("`timestamp`: set at append time, immutable") and the source's
own intent (the `.copy()` call, the comment about converting for
serialization) make this a bug in the code, not in the claim. -/
theorem c1_export_mutates_store :
    (stC1.get_conversation "c").map (fun c => c.messages.map Msg.timestamp)
        = some [.dt 5] ∧
    (stC1.export_conversation "c").1 = .ok (some recC1) ∧
    ((stC1.export_conversation "c").2.get_conversation "c").map
        (fun c => c.messages.map Msg.timestamp) = some [.iso "5"] ∧
    ([TimeVal.iso "5"] ≠ [TimeVal.dt 5]) ∧
    ((stC1.export_conversation "c").2.export_conversation "c").1 =
        .error () :=
  ⟨rfl, rfl, rfl, by decide, rfl⟩

/-!
## Claim C2 — every operation on an unknown id is falsy and harmless
-/

/-- C2: for an id absent from the store, `add_message`, `update_context`,
`set_user_info`, `escalate_conversation` and `resolve_conversation` return
`False` and leave the store unchanged, `get_messages` returns `[]`,
`get_conversation_summary` returns `None`, and `export_conversation`
returns `None`; none of them raises (all result types here are total, and
the error-modelling `Except` is `.ok`). -/
theorem c2_unknown_id_ops_falsy (st : ConversationManager) (cid : String)
    (h : dictGet st.conversations cid = none)
    (role content mid : String)
    (md : Option (List (String × Option String))) (now : Int)
    (limit : Option Int) (upds info : List (String × String))
    (reason : Option String) (score : Option Int) :
    st.add_message cid role content md mid now = (false, st) ∧
    st.update_context cid upds now = (false, st) ∧
    st.set_user_info cid info = (false, st) ∧
    st.escalate_conversation cid reason mid now = (false, st) ∧
    st.resolve_conversation cid score now = (false, st) ∧
    st.get_messages cid limit = [] ∧
    st.get_conversation_summary cid = .ok none ∧
    st.export_conversation cid = (.ok none, st) := by
  have hf := dictHas_eq_false_of_none h
  refine ⟨?_, ?_, ?_, ?_, ?_, ?_, ?_, ?_⟩ <;>
    simp [ConversationManager.add_message,
      ConversationManager.update_context,
      ConversationManager.set_user_info,
      ConversationManager.escalate_conversation,
      ConversationManager.resolve_conversation,
      ConversationManager.get_messages,
      ConversationManager.get_conversation_summary,
      ConversationManager.export_conversation, hf, h]

/-- C2 witness: the empty store and the id `"x"`. -/
theorem c2_unknown_id_ops_falsy_witness :
    (ConversationManager.mk [] 86400).add_message "x" "user" "hi" none "m" 5
        = (false, ConversationManager.mk [] 86400) ∧
    (ConversationManager.mk [] 86400).update_context "x" [] 5
        = (false, ConversationManager.mk [] 86400) ∧
    (ConversationManager.mk [] 86400).set_user_info "x" []
        = (false, ConversationManager.mk [] 86400) ∧
    (ConversationManager.mk [] 86400).escalate_conversation "x" none "m" 5
        = (false, ConversationManager.mk [] 86400) ∧
    (ConversationManager.mk [] 86400).resolve_conversation "x" none 5
        = (false, ConversationManager.mk [] 86400) ∧
    (ConversationManager.mk [] 86400).get_messages "x" none = [] ∧
    (ConversationManager.mk [] 86400).get_conversation_summary "x"
        = .ok none ∧
    (ConversationManager.mk [] 86400).export_conversation "x"
        = (.ok none, ConversationManager.mk [] 86400) :=
  c2_unknown_id_ops_falsy (ConversationManager.mk [] 86400) "x" rfl
    "user" "hi" "m" none 5 none [] [] none none

/-!
## Claim C3 — eviction removes exactly the conversations strictly older
than `max_conversation_age`
-/

theorem foldl_dictDel {κ α : Type} [DecidableEq κ] (ids : List κ)
    (l : List (κ × α)) :
    ids.foldl (fun cs k => dictDel cs k) l
      = l.filter (fun p => p.1 ∉ ids) := by
  induction ids generalizing l with
  | nil => simp
  | cons i t ih =>
    simp only [List.foldl_cons]
    rw [ih]
    show (dictDel l i).filter _ = _
    rw [dictDel, List.filter_filter]
    apply List.filter_congr
    intro p _
    simp [List.mem_cons, not_or, Bool.and_comm]

/-- C3: `cleanup_old_conversations` returns the number of conversations
with `now - last_activity > max_conversation_age` and removes exactly
those, leaving the rest (and the threshold) untouched; in particular a
conversation whose `last_activity` is `now - 1`, with the default 24-hour
threshold, is kept.  The id list is assumed duplicate-free, the invariant
of the Python dict it models. -/
theorem c3_cleanup_removes_iff (st : ConversationManager) (now : Int)
    (hnodup : (st.conversations.map Prod.fst).Nodup) :
    (st.cleanup_old_conversations now).1 =
      (st.conversations.filter
        (fun p => now - p.2.last_activity > st.max_conversation_age)).length
      ∧
    (st.cleanup_old_conversations now).2.conversations =
      st.conversations.filter
        (fun p => ¬ now - p.2.last_activity > st.max_conversation_age) ∧
    (st.cleanup_old_conversations now).2.max_conversation_age =
      st.max_conversation_age ∧
    (∀ cid c, (cid, c) ∈ st.conversations → c.last_activity = now - 1 →
      st.max_conversation_age = 86400 →
      (cid, c) ∈ (st.cleanup_old_conversations now).2.conversations) := by
  have hinj := List.inj_on_of_nodup_map hnodup
  have h2 : (st.cleanup_old_conversations now).2.conversations =
      st.conversations.filter
        (fun p => ¬ now - p.2.last_activity > st.max_conversation_age) := by
    show (((st.conversations.filter _).map Prod.fst).foldl
        (fun cs cid => dictDel cs cid) st.conversations) = _
    rw [foldl_dictDel]
    apply List.filter_congr
    intro p hp
    by_cases hex : now - p.2.last_activity > st.max_conversation_age
    · simp only [decide_eq_decide]
      constructor
      · intro hnot
        exact absurd
          (List.mem_map_of_mem Prod.fst (List.mem_filter.mpr
            ⟨hp, by simpa using hex⟩)) hnot
      · intro hfalse
        exact absurd hex hfalse
    · simp only [decide_eq_decide]
      constructor
      · intro _
        exact hex
      · intro _ hmem
        obtain ⟨q, hq, hqk⟩ := List.mem_map.mp hmem
        have hqmem := (List.mem_filter.mp hq).1
        have hqex := (List.mem_filter.mp hq).2
        have : q = p := hinj hqmem hp hqk
        rw [this] at hqex
        exact hex (by simpa using hqex)
  refine ⟨by simp [ConversationManager.cleanup_old_conversations], h2, rfl,
    ?_⟩
  intro cid c hmem hla hmax
  rw [h2]
  refine List.mem_filter.mpr ⟨hmem, ?_⟩
  simp only [hla, hmax]
  norm_num

/-- Witness conversations for C3: one expired, one touched one second
before the sweep. -/
def convOld : Conv :=
  { id := "old", created_at := 0, last_activity := 0, messages := [],
    context := [], user_info := [], satisfaction_score := none,
    escalated := false, resolved := false }

def convNew : Conv := { convOld with id := "new", last_activity := 99999 }

def stC3 : ConversationManager :=
  { conversations := [("old", convOld), ("new", convNew)] }

/-- C3 witness: sweeping at instant 100000 removes exactly the
conversation idle since 0 and keeps the one touched at 99999. -/
theorem c3_cleanup_removes_iff_witness :
    (stC3.cleanup_old_conversations 100000).1 = 1 ∧
    (stC3.cleanup_old_conversations 100000).2.conversations =
      [("new", convNew)] ∧
    ("new", convNew) ∈
      (stC3.cleanup_old_conversations 100000).2.conversations := by
  have h := c3_cleanup_removes_iff stC3 100000 (by decide)
  exact ⟨h.1.trans (by decide), (h.2.1).trans (by decide),
    h.2.2.2 "new" convNew (by decide) (by decide) rfl⟩

/-!
## Claim C4 — which mutations touch `last_activity`
-/

def convC4 : Conv :=
  { id := "c", created_at := 0, last_activity := 0, messages := [],
    context := [], user_info := [], satisfaction_score := none,
    escalated := false, resolved := false }

def stC4 : ConversationManager := { conversations := [("c", convC4)] }

/-- C4 counterexample: the claim says **every** successful mutating
operation updates `last_activity` to the mutation time, but a successful
`resolve_conversation` at instant 5 (and a successful `set_user_info`,
which never even reads the clock) leaves `last_activity` at 0. -/
theorem c4_counterexample :
    (stC4.resolve_conversation "c" none 5).1 = true ∧
    ((stC4.resolve_conversation "c" none 5).2.get_conversation "c").map
        Conv.last_activity = some 0 ∧
    (stC4.set_user_info "c" [("name", "bob")]).1 = true ∧
    ((stC4.set_user_info "c" [("name", "bob")]).2.get_conversation "c").map
        Conv.last_activity = some 0 ∧
    (0 : Int) ≠ 5 := by
  refine ⟨rfl, rfl, rfl, rfl, by decide⟩

/-- C4 amended: on a known conversation, `add_message`, `update_context`
and `escalate_conversation` (through the system message it appends) set
`last_activity` to the mutation time, while `set_user_info` and
`resolve_conversation` succeed but leave `last_activity` unchanged. -/
theorem c4_last_activity_updates (st : ConversationManager) (cid : String)
    (c : Conv) (h : dictGet st.conversations cid = some c)
    (role content mid : String)
    (md : Option (List (String × Option String))) (now : Int)
    (upds info : List (String × String)) (reason : Option String)
    (score : Option Int) :
    ((st.add_message cid role content md mid now).1 = true ∧
      (dictGet (st.add_message cid role content md mid now).2.conversations
        cid).map Conv.last_activity = some now) ∧
    ((st.update_context cid upds now).1 = true ∧
      (dictGet (st.update_context cid upds now).2.conversations cid).map
        Conv.last_activity = some now) ∧
    ((st.escalate_conversation cid reason mid now).1 = true ∧
      (dictGet
        (st.escalate_conversation cid reason mid now).2.conversations
        cid).map Conv.last_activity = some now) ∧
    ((st.set_user_info cid info).1 = true ∧
      (dictGet (st.set_user_info cid info).2.conversations cid).map
        Conv.last_activity = some c.last_activity) ∧
    ((st.resolve_conversation cid score now).1 = true ∧
      (dictGet (st.resolve_conversation cid score now).2.conversations
        cid).map Conv.last_activity = some c.last_activity) := by
  have hh := dictHas_of_dictGet_some h
  refine ⟨⟨?_, ?_⟩, ⟨?_, ?_⟩, ⟨?_, ?_⟩, ⟨?_, ?_⟩, ⟨?_, ?_⟩⟩ <;>
    simp [ConversationManager.add_message,
      ConversationManager.update_context,
      ConversationManager.set_user_info,
      ConversationManager.escalate_conversation,
      ConversationManager.resolve_conversation, hh,
      ConversationManager.dictHas_modifyConv,
      ConversationManager.dictGet_modifyConv, h]

/-- C4 witness: the amended behavior evaluated on a one-conversation
store, mutating at instant 7. -/
theorem c4_last_activity_updates_witness :
    ((stC4.add_message "c" "user" "hi" none "m" 7).1 = true ∧
      (dictGet (stC4.add_message "c" "user" "hi" none "m" 7).2.conversations
        "c").map Conv.last_activity = some 7) ∧
    ((stC4.update_context "c" [] 7).1 = true ∧
      (dictGet (stC4.update_context "c" [] 7).2.conversations "c").map
        Conv.last_activity = some 7) ∧
    ((stC4.escalate_conversation "c" none "m" 7).1 = true ∧
      (dictGet (stC4.escalate_conversation "c" none "m" 7).2.conversations
        "c").map Conv.last_activity = some 7) ∧
    ((stC4.set_user_info "c" []).1 = true ∧
      (dictGet (stC4.set_user_info "c" []).2.conversations "c").map
        Conv.last_activity = some 0) ∧
    ((stC4.resolve_conversation "c" none 7).1 = true ∧
      (dictGet (stC4.resolve_conversation "c" none 7).2.conversations
        "c").map Conv.last_activity = some 0) :=
  c4_last_activity_updates stC4 "c" convC4 rfl "user" "hi" "m" none 7
    [] [] none none

/-!
## Claim C7 — `get_messages` and the `limit` argument
-/

def msgC7 : Msg :=
  { id := "m1", role := "user", content := "hi", timestamp := .dt 1,
    metadata := [] }

def stC7 : ConversationManager :=
  { conversations :=
      [("c",
        { id := "c", created_at := 0, last_activity := 1,
          messages := [msgC7], context := [], user_info := [],
          satisfaction_score := none, escalated := false,
          resolved := false })] }

/-- C7 counterexample: the claim promises the most recent `limit` messages
for **every** supplied limit, but `get_messages(id, 0)` returns the whole
message list (Python's `if limit:` treats `0` as falsy), not the most
recent zero messages. -/
theorem c7_counterexample :
    stC7.get_messages "c" (some 0) = [msgC7] ∧
    ([msgC7] : List Msg).length ≠ 0 :=
  ⟨rfl, by decide⟩

/-- C7 amended: for a known id, `get_messages` returns all messages when
`limit` is omitted or `0`, the most recent `limit` messages (all of them
when `limit` exceeds the count) when `limit` is positive, and everything
after the first `-limit` messages when `limit` is negative — always in
stored (chronological) order; for an unknown id it returns the empty
sequence. -/
theorem c7_get_messages_spec (st : ConversationManager) (cid : String)
    (limit : Option Int) :
    st.get_messages cid limit =
      match dictGet st.conversations cid with
      | none => []
      | some c =>
        match limit with
        | none => c.messages
        | some k =>
          if 0 < k then c.messages.drop (c.messages.length - k.toNat)
          else if k = 0 then c.messages
          else c.messages.drop (-k).toNat := by
  cases hg : dictGet st.conversations cid with
  | none => simp [ConversationManager.get_messages, hg]
  | some c =>
    cases limit with
    | none => simp [ConversationManager.get_messages, hg]
    | some k =>
      simp only [ConversationManager.get_messages, hg]
      simp only [ConversationManager.pySliceFrom]
      rcases lt_trichotomy k 0 with hneg | hzero | hpos
      · rw [if_pos (by omega : k ≠ 0), if_neg (by omega : ¬ -k < 0),
          if_neg (by omega : ¬ 0 < k), if_neg (by omega : ¬ k = 0)]
        rcases le_total (-k) ((c.messages.length : Int)) with hle | hle
        · rw [min_eq_left hle]
        · rw [min_eq_right hle]
          rw [List.drop_eq_nil_of_le (by omega),
            List.drop_eq_nil_of_le (by omega)]
      · subst hzero
        simp
      · rw [if_pos (by omega : k ≠ 0), if_pos (by omega : -k < 0),
          if_pos hpos]
        congr 1
        rcases le_total ((c.messages.length : Int) + -k) 0 with hle | hle
        · rw [max_eq_right hle]
          omega
        · rw [max_eq_left hle]
          omega

/-!
## Claim C5 — entity deduplication key
-/

open EntityExtractor in
/-- Two entities with distinct `(type, lowercased value)` identities whose
concatenated dedup keys nevertheless coincide. -/
def entA : Entity :=
  { type := "a", value := "b_c", confidence := mkRat 3 5, source := "ai" }

open EntityExtractor in
def entB : Entity :=
  { type := "a_b", value := "c", confidence := mkRat 9 10, source := "ai" }

open EntityExtractor in
/-- C5 counterexample: the claim says entities with distinct
`(type, lowercased value)` identities are never merged, but the code keys
the dict by the **string** `type + "_" + value.lower()`, which conflates
`("a", "b_c")` with `("a_b", "c")`: the two entities above are merged into
one. -/
theorem c5_counterexample :
    (_deduplicate_entities [entA, entB]).length = 1 ∧
    ¬ (entA.type = entB.type ∧ pyLower entA.value = pyLower entB.value) :=
  ⟨by decide, by decide⟩

open EntityExtractor in
/-- C5 amended: deduplication merges two entities exactly when they agree
on the concatenated key `type + "_" + lowercase(value)` — which agrees with
the `(type, lowercased value)` identity except that underscores let
distinct identities collide — and a collision keeps the strictly
higher-confidence entity, the earlier one on ties; the claim's concrete
example (two case variants of an `order_number` `ABC123` at confidences
0.6 and 0.9) yields exactly the 0.9 entity. -/
theorem c5_dedup_pair_spec :
    (∀ e1 e2 : Entity,
      _deduplicate_entities [e1, e2] =
        if e1.type ++ "_" ++ pyLower e1.value =
            e2.type ++ "_" ++ pyLower e2.value then
          [if e2.confidence > e1.confidence then e2 else e1]
        else [e1, e2]) ∧
    (_deduplicate_entities
      [{ type := "order_number", value := "ABC123",
         confidence := mkRat 3 5, source := "regex" },
       { type := "order_number", value := "abc123",
         confidence := mkRat 9 10, source := "ai" }] =
      [{ type := "order_number", value := "abc123",
         confidence := mkRat 9 10, source := "ai" }] ∧
     mkRat 3 5 = (3/5 : ℚ) ∧ mkRat 9 10 = (9/10 : ℚ)) := by
  constructor
  · intro e1 e2
    by_cases hkey : e1.type ++ "_" ++ pyLower e1.value =
        e2.type ++ "_" ++ pyLower e2.value
    · by_cases hconf : e2.confidence > e1.confidence
      · simp [_deduplicate_entities, dedupStep, dictGet, dictSet, dictHas,
          List.find?, hkey, hconf]
      · simp [_deduplicate_entities, dedupStep, dictGet, dictSet, dictHas,
          List.find?, hkey, hconf]
    · simp [_deduplicate_entities, dedupStep, dictGet, dictSet, dictHas,
        List.find?, hkey]
  · refine ⟨by decide, ?_, ?_⟩ <;> rw [Rat.mkRat_eq_div] <;> norm_num

/-!
## Claim C8 — a failing external stage degrades to pattern-only extraction
-/

open EntityExtractor in
/-- C8: when the external-model stage raises (any error `e`),
`extract_entities` still returns normally — it is a total function into an
entity list — and its result is exactly the deduplicated output of the
pattern stage alone. -/
theorem c8_ai_failure_pattern_only (text : String) (e : String) :
    extract_entities text (.error e) =
      _deduplicate_entities (_extract_with_regex text) := rfl

/-!
## Claim C10 — any digit in the text produces an `amount` entity
-/

theorem runLen_pos (a : List Char) (p : Char → Bool) (i cap : Nat)
    (hcap : 0 < cap) (hlen : i < a.length) (hp : p (a.getD i ' ') = true) :
    0 < runLen a p i cap := by
  cases cap with
  | zero => omega
  | succ c =>
    simp only [runLen]
    rw [if_pos ⟨hlen, hp⟩]
    omega

theorem mem_mmatch_rep_one (a : List Char) (p : Char → Bool) (i : Nat)
    (g : Option (Nat × Nat)) (hlen : i < a.length)
    (hp : p (a.getD i ' ') = true) :
    (i + runLen a p i (a.length - i), g) ∈
      mmatch a (.rep p 1 none) i g := by
  have hpos : 0 < runLen a p i (a.length - i) :=
    runLen_pos a p i _ (by omega) hlen hp
  simp only [mmatch]
  rw [if_neg (by omega : ¬ runLen a p i (a.length - i) < 1)]
  refine List.mem_map.mpr ⟨0, ?_, by simp⟩
  simp [List.mem_range]

theorem mem_mmatch_opt_skip (a : List Char) (r : RE) (i : Nat)
    (g : Option (Nat × Nat)) : (i, g) ∈ mmatch a (.opt r) i g := by
  simp [mmatch]

theorem mem_mmatch_seq (a : List Char) (r1 r2 : RE) (i : Nat)
    (g : Option (Nat × Nat)) (x y : Nat × Option (Nat × Nat))
    (h1 : x ∈ mmatch a r1 i g) (h2 : y ∈ mmatch a r2 x.1 x.2) :
    y ∈ mmatch a (.seq r1 r2) i g := by
  simp only [mmatch]
  exact List.mem_flatMap.mpr ⟨x, h1, h2⟩

theorem amount_match_at_digit (a : List Char) (i : Nat)
    (hlen : i < a.length) (hd : (a.getD i ' ').isDigit = true) :
    reMatch a amountRE i ≠ none := by
  have hmem : (i + runLen a Char.isDigit i (a.length - i),
      (none : Option (Nat × Nat))) ∈ mmatch a amountRE i none := by
    show _ ∈ mmatch a
      (.seq (.opt (chr '$'))
        (.seq (.rep Char.isDigit 1 none)
          (.opt (.seq (chr '.') (.rep Char.isDigit 2 (some 2)))))) i none
    exact mem_mmatch_seq a _ _ i none (i, none) _
      (mem_mmatch_opt_skip a _ i none)
      (mem_mmatch_seq a _ _ i none
        (i + runLen a Char.isDigit i (a.length - i), none) _
        (mem_mmatch_rep_one a Char.isDigit i none hlen hd)
        (mem_mmatch_opt_skip a _ _ none))
  intro hnone
  have : mmatch a amountRE i none = [] := by
    cases hq : mmatch a amountRE i none with
    | nil => rfl
    | cons x xs => rw [reMatch, hq] at hnone; cases hnone
  rw [this] at hmem
  cases hmem

theorem finditerAux_amount_ne_nil (a : List Char) :
    ∀ (fuel pos i : Nat), i < a.length → pos ≤ i →
      (a.getD i ' ').isDigit = true → a.length + 1 ≤ pos + fuel →
      finditerAux a amountRE pos fuel ≠ [] := by
  intro fuel
  induction fuel with
  | zero =>
    intro pos i hlen hpi hd hfuel
    omega
  | succ f ih =>
    intro pos i hlen hpi hd hfuel
    simp only [finditerAux]
    rw [if_neg (by omega : ¬ pos > a.length)]
    cases hm : reMatch a amountRE pos with
    | some x =>
      cases x
      simp
    | none =>
      have hne : pos ≠ i := by
        intro he
        subst he
        exact amount_match_at_digit a pos hlen hd hm
      exact ih (pos + 1) i hlen (by omega) hd (by omega)

open EntityExtractor in
/-- C10: for every input text containing at least one decimal digit, the
pattern stage of extraction yields at least one entity of type `amount`:
the amount pattern `\$?\d+(?:\.\d{2})?` needs no currency symbol or
monetary context, so any bare digit run matches it. -/
theorem c10_digit_yields_amount (text : String)
    (h : ∃ c ∈ text.data, c.isDigit = true) :
    ∃ e ∈ _extract_with_regex text, e.type = "amount" := by
  obtain ⟨c, hc, hd⟩ := h
  obtain ⟨i, hgi⟩ := List.mem_iff_get.mp hc
  have hdi : (text.data.getD (i : ℕ) ' ').isDigit = true := by
    rw [List.getD_eq_getElem _ _ i.isLt, ← List.get_eq_getElem, hgi]
    exact hd
  have hfind : finditer text.data amountRE ≠ [] :=
    finditerAux_amount_ne_nil text.data (text.data.length + 1) 0 i i.isLt
      (Nat.zero_le _) hdi (by omega)
  obtain ⟨m, hm⟩ := List.exists_mem_of_ne_nil _ hfind
  refine ⟨{ type := "amount",
            value := pyStrip (sub text.data m.1 m.2.1),
            start := some m.1, endPos := some m.2.1,
            confidence := 9/10, source := "regex" }, ?_, rfl⟩
  simp only [_extract_with_regex]
  refine List.mem_flatMap.mpr ⟨("amount", amountRE), by simp [patterns],
    List.mem_map.mpr ⟨m, hm, rfl⟩⟩

open EntityExtractor in
/-- C10 witness: the text `"a1b"` contains the digit `1`, so pattern
extraction on it yields an `amount` entity. -/
theorem c10_digit_yields_amount_witness :
    ∃ e ∈ _extract_with_regex "a1b", e.type = "amount" :=
  c10_digit_yields_amount "a1b" ⟨'1', by decide, by decide⟩

/-!
## Claim C6 — FAQ matching selects the first highest combined score at or
above the threshold
-/

namespace FAQHandler

/-- The update step of `get_faq_response`'s loop, on one
(combined score, entry) pair. -/
def selStep (st : ℚ × Option FAQData) (p : ℚ × FAQData) :
    ℚ × Option FAQData :=
  if p.1 > st.1 ∧ p.1 ≥ similarity_threshold then (p.1, some p.2) else st

theorem foldl_flatMap {α β γ : Type} (f : γ → α → γ) (g : β → List α)
    (l : List β) (init : γ) :
    (l.flatMap g).foldl f init
      = l.foldl (fun acc b => (g b).foldl f acc) init := by
  induction l generalizing init with
  | nil => rfl
  | cons x xs ih =>
    simp only [List.flatMap_cons, List.foldl_append, List.foldl_cons]
    exact ih _

theorem foldl_faq_scored (faqs : List (String × FAQData)) (msg : String)
    (init : ℚ × Option FAQData) :
    faqs.foldl
      (fun st pr =>
        pr.2.questions.foldl
          (fun (st : ℚ × Option FAQData) question =>
            let c := combined_score (pyLower msg) question
            if c > st.1 ∧ c ≥ similarity_threshold then (c, some pr.2)
            else st)
          st)
      init
    = (faq_scored faqs msg).foldl selStep init := by
  rw [faq_scored, foldl_flatMap]
  simp only [List.foldl_map]
  rfl

theorem foldl_selStep_eq (L : List (ℚ × FAQData)) (b : ℚ)
    (m : Option FAQData) :
    (L.foldl selStep (b, m)).2 =
      match bestOf L with
      | none => m
      | some p =>
        if p.1 > b ∧ p.1 ≥ similarity_threshold then some p.2 else m := by
  induction L generalizing b m with
  | nil => rfl
  | cons p ps ih =>
    simp only [List.foldl_cons, bestOf]
    by_cases hq : p.1 > b ∧ p.1 ≥ similarity_threshold
    · rw [show selStep (b, m) p = (p.1, some p.2) by simp [selStep, hq]]
      rw [ih]
      cases hbo : bestOf ps with
      | none => simp [hbo, hq]
      | some r =>
        by_cases hr : r.1 > p.1
        · have hrt : r.1 ≥ similarity_threshold :=
            le_trans hq.2 (le_of_lt hr)
          have hrb : r.1 > b := lt_trans hq.1 hr
          simp [hbo, hr, hrt, hrb]
        · simp [hbo, hr, hq]
    · rw [show selStep (b, m) p = (b, m) by simp [selStep, hq]]
      rw [ih]
      cases hbo : bestOf ps with
      | none => simp [hbo, hq]
      | some r =>
        by_cases hr : r.1 > p.1
        · simp [hbo, hr]
        · have hnr : ¬ (r.1 > b ∧ r.1 ≥ similarity_threshold) := by
            intro hc
            exact hq ⟨lt_of_lt_of_le hc.1 (le_of_not_lt hr),
              le_trans hc.2 (le_of_not_lt hr)⟩
          simp [hbo, hr, hnr, hq]

end FAQHandler

open FAQHandler in
/-- C6: `get_faq_response` computes, for every catalog entry and each of
its paraphrase questions, the combined score
`0.7 × SequenceMatcher-ratio(lowercased message, lowercased paraphrase)
 + 0.3 × keyword overlap` (the overlap being
`|intersection| / |FAQ-question keywords|` after stop-word removal, `0`
when the paraphrase keeps no keywords), and returns the answer of the
first entry in iteration order attaining the single highest combined score
when that score is at least the 0.6 threshold, and no match otherwise —
as a normal `none`, not an error. -/
theorem c6_get_faq_response_spec (faqs : List (String × FAQData))
    (msg : String) :
    get_faq_response faqs msg = spec_faq_response faqs msg := by
  show (match (faqs.foldl _ ((0 : ℚ), (none : Option FAQData))).2 with
    | some fd => some fd.answer
    | none => none) = _
  rw [foldl_faq_scored faqs msg, foldl_selStep_eq]
  unfold spec_faq_response
  cases hbo : bestOf (faq_scored faqs msg) with
  | none => rfl
  | some p =>
    by_cases ht : p.1 ≥ similarity_threshold
    · have h0 : p.1 > 0 :=
        lt_of_lt_of_le (by norm_num [similarity_threshold]) ht
      simp [h0, ht]
    · simp [ht]

end Chatbot
